import Mathlib

/-!
Shallow embedding of the FHIR C data-type layer (`src/fast_fhir/ext/fhir_datatypes.c`)
of the fast-fhir repository, together with a spec-modelled ownership layer
(whose C implementation lives outside the provided sources; only its tests do).

Modelling conventions:
* A C `cJSON*` pointer (possibly NULL) is `Option CJSON`; a JSON number carries a
  rational (`Rat`), which is exact for every value the claims touch.
* A C string pointer (possibly NULL) is `Option String`.
* `calloc` zero-initialisation becomes explicit `none` / `false` / `[]` fields.
* Allocation is assumed to succeed: the C functions return NULL on `calloc` failure,
  a branch with no information content for the properties below.
* A C array-plus-count pair (`coding`/`coding_count`, `given`/`given_count`) is a
  Lean list; the count is its length.  The C code only ever grows the array and the
  count together, so the pairing is faithful.
-/

/-- cJSON document tree: NULL/true/false/number/string/array/object nodes.
`obj` keeps the field list in insertion order, as cJSON's child chain does. -/
inductive CJSON where
  | null : CJSON
  | bool : Bool → CJSON
  | num : Rat → CJSON
  | str : String → CJSON
  | arr : List CJSON → CJSON
  | obj : List (String × CJSON) → CJSON

/-- cJSON_IsString, on a possibly-NULL pointer. -/
def cJSON_IsString : Option CJSON → Bool
  | some (.str _) => true
  | _ => false

/-- cJSON_IsBool, on a possibly-NULL pointer. -/
def cJSON_IsBool : Option CJSON → Bool
  | some (.bool _) => true
  | _ => false

/-- cJSON_IsNumber, on a possibly-NULL pointer. -/
def cJSON_IsNumber : Option CJSON → Bool
  | some (.num _) => true
  | _ => false

/-- cJSON_IsObject, on a possibly-NULL pointer. -/
def cJSON_IsObject : Option CJSON → Bool
  | some (.obj _) => true
  | _ => false

/-- cJSON_IsArray, on a possibly-NULL pointer. -/
def cJSON_IsArray : Option CJSON → Bool
  | some (.arr _) => true
  | _ => false

/-- cJSON_IsTrue: the node is the boolean true. -/
def cJSON_IsTrue : Option CJSON → Bool
  | some (.bool b) => b
  | _ => false

/-- First field of an object child list whose key matches exactly (case-sensitive). -/
def findField : List (String × CJSON) → String → Option CJSON
  | [], _ => none
  | (k, v) :: rest, key => if k = key then some v else findField rest key

/-- cJSON_GetObjectItemCaseSensitive: NULL on a NULL or non-object node. -/
def cJSON_GetObjectItemCaseSensitive (json : Option CJSON) (key : String) : Option CJSON :=
  match json with
  | some (.obj fields) => findField fields key
  | _ => none

/-- The C idiom `cJSON_IsString(x) ? x->valuestring : NULL`. -/
def cJSON_valuestring : Option CJSON → Option String
  | some (.str s) => some s
  | _ => none

/-- `x->valuedouble` read after a `cJSON_IsNumber` check (0 otherwise, never reached). -/
def cJSON_valuedouble : Option CJSON → Rat
  | some (.num q) => q
  | _ => 0

/-- The item list iterated by `cJSON_ArrayForEach` (empty for a non-array node). -/
def cJSON_arrayItems : Option CJSON → List CJSON
  | some (.arr items) => items
  | _ => []

/-- Keys of a rendered JSON object, in emission order. -/
def jsonKeys : CJSON → List String
  | .obj fields => fields.map Prod.fst
  | _ => []

/-- fhir_string_duplicate: strdup that passes NULL through (allocation assumed to succeed). -/
def fhir_string_duplicate (s : Option String) : Option String := s

/-- The C cast `(int)d` applied to an exact rational: truncation toward zero. -/
def c_int_of_double (q : Rat) : Int := q.num.tdiv q.den

/-- C `isdigit` in the C locale. -/
def c_isdigit (c : Char) : Bool := '0' ≤ c && c ≤ '9'

/-- C `isspace` in the C locale: space, tab, newline, vertical tab, form feed, carriage return. -/
def c_isspace (c : Char) : Bool :=
  c = ' ' || c = '\t' || c = '\n' || c = '\x0b' || c = '\x0c' || c = '\r'

/-- `(c1 - '0') * 10 + (c2 - '0')`, the two-digit value the validators compute. -/
def two_digit (c1 c2 : Char) : Nat := (c1.toNat - '0'.toNat) * 10 + (c2.toNat - '0'.toNat)

/- FHIR data structures (fields as used by `fhir_datatypes.c`; the element base
carries only the id the primitive constructors touch). -/

structure FHIRString where
  id : Option String
  value : Option String
deriving DecidableEq

structure FHIRBoolean where
  id : Option String
  value : Bool
deriving DecidableEq

structure FHIRInteger where
  id : Option String
  value : Int
deriving DecidableEq

structure FHIRDecimal where
  id : Option String
  value : Rat
deriving DecidableEq

structure FHIRCoding where
  system : Option String
  version : Option String
  code : Option String
  display : Option String
  user_selected : Bool
deriving DecidableEq

structure FHIRCodeableConcept where
  text : Option String
  coding : List FHIRCoding
deriving DecidableEq

/-- `coding_count`: the C count field, always grown together with the array. -/
def FHIRCodeableConcept.coding_count (c : FHIRCodeableConcept) : Nat := c.coding.length

structure FHIRQuantity where
  value : Rat
  comparator : Option String
  unit : Option String
  system : Option String
  code : Option String
deriving DecidableEq

structure FHIRHumanName where
  use : Option String
  text : Option String
  family : List String
  given : List String
deriving DecidableEq

/-- `family_count`: the C count field. -/
def FHIRHumanName.family_count (n : FHIRHumanName) : Nat := n.family.length

/-- `given_count`: the C count field. -/
def FHIRHumanName.given_count (n : FHIRHumanName) : Nat := n.given.length

/- Constructors (calloc zero-fills, then the listed fields are set). -/

def fhir_string_create (value : Option String) : FHIRString :=
  { id := none, value := fhir_string_duplicate value }

def fhir_boolean_create (value : Bool) : FHIRBoolean :=
  { id := none, value := value }

def fhir_integer_create (value : Int) : FHIRInteger :=
  { id := none, value := value }

def fhir_decimal_create (value : Rat) : FHIRDecimal :=
  { id := none, value := value }

/-- fhir_coding_create: `version` is never set here (calloc leaves it NULL);
`user_selected` is initialised to false. -/
def fhir_coding_create (system code display : Option String) : FHIRCoding :=
  { system := fhir_string_duplicate system
    version := none
    code := fhir_string_duplicate code
    display := fhir_string_duplicate display
    user_selected := false }

def fhir_codeable_concept_create (text : Option String) : FHIRCodeableConcept :=
  { text := fhir_string_duplicate text, coding := [] }

def fhir_quantity_create (value : Rat) (unit system code : Option String) : FHIRQuantity :=
  { value := value
    comparator := none
    unit := fhir_string_duplicate unit
    system := fhir_string_duplicate system
    code := fhir_string_duplicate code }

/- JSON parsing functions. -/

/-- fhir_parse_string: NULL unless the node is a string. -/
def fhir_parse_string (json : Option CJSON) : Option FHIRString :=
  if ¬ cJSON_IsString json then none
  else some (fhir_string_create (cJSON_valuestring json))

/-- fhir_parse_boolean: NULL unless the node is a boolean. -/
def fhir_parse_boolean (json : Option CJSON) : Option FHIRBoolean :=
  if ¬ cJSON_IsBool json then none
  else some (fhir_boolean_create (cJSON_IsTrue json))

/-- fhir_parse_integer: NULL unless the node is a number; the double value is
cast to int (truncation), fractional numbers included. -/
def fhir_parse_integer (json : Option CJSON) : Option FHIRInteger :=
  if ¬ cJSON_IsNumber json then none
  else some (fhir_integer_create (c_int_of_double (cJSON_valuedouble json)))

/-- fhir_parse_decimal: NULL unless the node is a number. -/
def fhir_parse_decimal (json : Option CJSON) : Option FHIRDecimal :=
  if ¬ cJSON_IsNumber json then none
  else some (fhir_decimal_create (cJSON_valuedouble json))

/-- fhir_parse_coding: requires an object node; reads system/code/display as
strings-or-NULL and userSelected when boolean.  The "version" key is never read. -/
def fhir_parse_coding (json : Option CJSON) : Option FHIRCoding :=
  if ¬ cJSON_IsObject json then none
  else
    let system := cJSON_GetObjectItemCaseSensitive json "system"
    let code := cJSON_GetObjectItemCaseSensitive json "code"
    let display := cJSON_GetObjectItemCaseSensitive json "display"
    let user_selected := cJSON_GetObjectItemCaseSensitive json "userSelected"
    let coding := fhir_coding_create
      (cJSON_valuestring system) (cJSON_valuestring code) (cJSON_valuestring display)
    if cJSON_IsBool user_selected then
      some { coding with user_selected := cJSON_IsTrue user_selected }
    else
      some coding

/-- The `cJSON_ArrayForEach` loop of fhir_parse_codeable_concept: each element is
parsed independently and appended (with the count incremented) only on success. -/
def coding_array_foreach (items : List CJSON) : List FHIRCoding :=
  items.foldl
    (fun acc item =>
      match fhir_parse_coding (some item) with
      | some coding => acc ++ [coding]
      | none => acc)
    []

/-- fhir_parse_codeable_concept: requires an object node; text as string-or-NULL;
the coding array is iterated element by element when present. -/
def fhir_parse_codeable_concept (json : Option CJSON) : Option FHIRCodeableConcept :=
  if ¬ cJSON_IsObject json then none
  else
    let text := cJSON_GetObjectItemCaseSensitive json "text"
    let coding_array := cJSON_GetObjectItemCaseSensitive json "coding"
    let concept := fhir_codeable_concept_create (cJSON_valuestring text)
    if cJSON_IsArray coding_array then
      some { concept with coding := coding_array_foreach (cJSON_arrayItems coding_array) }
    else
      some concept

/-- fhir_parse_quantity: requires an object node and a numeric "value" field. -/
def fhir_parse_quantity (json : Option CJSON) : Option FHIRQuantity :=
  if ¬ cJSON_IsObject json then none
  else
    let value := cJSON_GetObjectItemCaseSensitive json "value"
    let unit := cJSON_GetObjectItemCaseSensitive json "unit"
    let system := cJSON_GetObjectItemCaseSensitive json "system"
    let code := cJSON_GetObjectItemCaseSensitive json "code"
    let comparator := cJSON_GetObjectItemCaseSensitive json "comparator"
    if ¬ cJSON_IsNumber value then none
    else
      let quantity := fhir_quantity_create (cJSON_valuedouble value)
        (cJSON_valuestring unit) (cJSON_valuestring system) (cJSON_valuestring code)
      if cJSON_IsString comparator then
        some { quantity with comparator := fhir_string_duplicate (cJSON_valuestring comparator) }
      else
        some quantity

/-- The given-names `cJSON_ArrayForEach` loop of fhir_parse_human_name: string
elements are appended in order (count incremented with each), others skipped. -/
def given_array_foreach (items : List CJSON) : List String :=
  items.foldl
    (fun acc item =>
      match item with
      | .str s => acc ++ [s]
      | _ => acc)
    []

/-- fhir_parse_human_name: requires an object node.  A string "family" becomes a
one-element array; the "given" array keeps its string elements.  (The C code also
fetches two further name-part keys it never stores; they are omitted here.) -/
def fhir_parse_human_name (json : Option CJSON) : Option FHIRHumanName :=
  if ¬ cJSON_IsObject json then none
  else
    let use := cJSON_GetObjectItemCaseSensitive json "use"
    let text := cJSON_GetObjectItemCaseSensitive json "text"
    let family := cJSON_GetObjectItemCaseSensitive json "family"
    let given := cJSON_GetObjectItemCaseSensitive json "given"
    let name0 : FHIRHumanName := { use := none, text := none, family := [], given := [] }
    let name1 := if cJSON_IsString use then
        { name0 with use := fhir_string_duplicate (cJSON_valuestring use) } else name0
    let name2 := if cJSON_IsString text then
        { name1 with text := fhir_string_duplicate (cJSON_valuestring text) } else name1
    let name3 := if cJSON_IsString family then
        { name2 with family := (cJSON_valuestring family).toList } else name2
    let name4 := if cJSON_IsArray given then
        { name3 with given := given_array_foreach (cJSON_arrayItems given) } else name3
    some name4

/- JSON serialization functions. -/

/-- `if (field) cJSON_AddStringToObject(json, key, field);` -/
def addIfSet (key : String) : Option String → List (String × CJSON)
  | some s => [(key, .str s)]
  | none => []

/-- fhir_coding_to_json: emits system, version, code, display when set, and
userSelected only when true. -/
def fhir_coding_to_json (coding : FHIRCoding) : CJSON :=
  .obj (addIfSet "system" coding.system
    ++ addIfSet "version" coding.version
    ++ addIfSet "code" coding.code
    ++ addIfSet "display" coding.display
    ++ (if coding.user_selected then [("userSelected", .bool coding.user_selected)] else []))

/-- fhir_quantity_to_json: "value" is always emitted; comparator, unit, system,
code only when set. -/
def fhir_quantity_to_json (quantity : FHIRQuantity) : CJSON :=
  .obj (("value", .num quantity.value)
    :: (addIfSet "comparator" quantity.comparator
    ++ addIfSet "unit" quantity.unit
    ++ addIfSet "system" quantity.system
    ++ addIfSet "code" quantity.code))

/- Validation functions.  A C string argument (possibly NULL) is `Option String`.
The date and time validators index into the string; the index functions below take
an explicit default character standing for memory beyond the list — the C string's
NUL terminator and whatever follows.  Independence from that default (proved below)
is exactly the guarantee that every read the result depends on is length-guarded. -/

/-- fhir_validate_uri: non-NULL and `strchr(uri, ':')` finds a scheme delimiter. -/
def fhir_validate_uri (uri : Option String) : Bool :=
  match uri with
  | none => false
  | some s => s.toList.contains ':'

/-- `strncmp(s, pat, strlen(pat)) == 0`: the first characters of `s` spell `pat`. -/
def leadsWith : List Char → List Char → Bool
  | [], _ => true
  | _ :: _, [] => false
  | p :: ps, c :: cs => p = c && leadsWith ps cs

/-- fhir_validate_url: non-NULL and an `http://` or `https://` lead. -/
def fhir_validate_url (url : Option String) : Bool :=
  match url with
  | none => false
  | some s => leadsWith "http://".toList s.toList || leadsWith "https://".toList s.toList

/-- Body of fhir_validate_date over the character list, with `d` the
out-of-bounds default.  Mirrors the C early-return chain. -/
def fhir_validate_date_impl (d : Char) (l : List Char) : Bool :=
  let len := l.length
  if ¬ (len = 4 ∨ len = 7 ∨ len = 10) then false
  else if ¬ (c_isdigit (l.getD 0 d) ∧ c_isdigit (l.getD 1 d) ∧
             c_isdigit (l.getD 2 d) ∧ c_isdigit (l.getD 3 d)) then false
  else if 7 ≤ len ∧ ¬ (l.getD 4 d = '-' ∧ c_isdigit (l.getD 5 d) ∧ c_isdigit (l.getD 6 d) ∧
             1 ≤ two_digit (l.getD 5 d) (l.getD 6 d) ∧
             two_digit (l.getD 5 d) (l.getD 6 d) ≤ 12) then false
  else if len = 10 ∧ ¬ (l.getD 7 d = '-' ∧ c_isdigit (l.getD 8 d) ∧ c_isdigit (l.getD 9 d) ∧
             1 ≤ two_digit (l.getD 8 d) (l.getD 9 d) ∧
             two_digit (l.getD 8 d) (l.getD 9 d) ≤ 31) then false
  else true

/-- fhir_validate_date on a possibly-NULL C string. -/
def fhir_validate_date (date : Option String) : Bool :=
  match date with
  | none => false
  | some s => fhir_validate_date_impl '\x00' s.toList

/-- Body of fhir_validate_time over the character list, with `d` the
out-of-bounds default.  Only the first eight characters are examined. -/
def fhir_validate_time_impl (d : Char) (l : List Char) : Bool :=
  let len := l.length
  if len < 8 then false
  else if ¬ (c_isdigit (l.getD 0 d) ∧ c_isdigit (l.getD 1 d)) then false
  else if ¬ (l.getD 2 d = ':') then false
  else if ¬ (c_isdigit (l.getD 3 d) ∧ c_isdigit (l.getD 4 d)) then false
  else if ¬ (l.getD 5 d = ':') then false
  else if ¬ (c_isdigit (l.getD 6 d) ∧ c_isdigit (l.getD 7 d)) then false
  else if two_digit (l.getD 0 d) (l.getD 1 d) > 23 ∨
          two_digit (l.getD 3 d) (l.getD 4 d) > 59 ∨
          two_digit (l.getD 6 d) (l.getD 7 d) > 59 then false
  else true

/-- fhir_validate_time on a possibly-NULL C string. -/
def fhir_validate_time (time : Option String) : Bool :=
  match time with
  | none => false
  | some s => fhir_validate_time_impl '\x00' s.toList

/-- fhir_validate_code: non-NULL, non-empty, and no whitespace character. -/
def fhir_validate_code (code : Option String) : Bool :=
  match code with
  | none => false
  | some s =>
    if s.length = 0 then false
    else ¬ s.toList.any c_isspace

/- Spec-modelled ownership layer.  Modelled from the spec: the reference-counting
resource base (fhir_resource_retain, fhir_resource_release, per-kind create) is
implemented in resource-base C files not present under src/; only its tests are
(test_patient_reference_counting).  Per spec: create starts the count at 1;
retain increments it and returns the same underlying handle; release decrements
it and destroys the resource exactly once, the instant the count reaches zero.
The destruction counter observable in tests is modelled explicitly. -/

structure FHIRResourceState where
  ref_count : Nat
  destroy_count : Nat
deriving DecidableEq

/-- Modelled from the spec: a fresh resource has one owner and has not been destroyed. -/
def fhir_resource_create : FHIRResourceState :=
  { ref_count := 1, destroy_count := 0 }

/-- Modelled from the spec: retain increments the count and returns the same
underlying handle (the handle is an opaque address, tracked unchanged). -/
def fhir_resource_retain (handle : Nat) (s : FHIRResourceState) : Nat × FHIRResourceState :=
  (handle, { s with ref_count := s.ref_count + 1 })

/-- Modelled from the spec: release decrements the count; at zero it destroys the
resource (incrementing the observable destruction counter) exactly once. -/
def fhir_resource_release (s : FHIRResourceState) : FHIRResourceState :=
  if s.ref_count ≤ 1 then { ref_count := 0, destroy_count := s.destroy_count + 1 }
  else { s with ref_count := s.ref_count - 1 }

/- Spec-side shape predicates, written from the claims' words, to be compared
with the validators embedded from the C source. -/

/-- The date shape the claim asserts: exactly YYYY, YYYY-MM or YYYY-MM-DD with
all-digit components, month 01-12, day 01-31. -/
def date_shape (l : List Char) : Bool :=
  match l with
  | [y1, y2, y3, y4] =>
      c_isdigit y1 && c_isdigit y2 && c_isdigit y3 && c_isdigit y4
  | [y1, y2, y3, y4, sep1, m1, m2] =>
      c_isdigit y1 && c_isdigit y2 && c_isdigit y3 && c_isdigit y4 &&
      sep1 = '-' && c_isdigit m1 && c_isdigit m2 &&
      1 ≤ two_digit m1 m2 && two_digit m1 m2 ≤ 12
  | [y1, y2, y3, y4, sep1, m1, m2, sep2, d1, d2] =>
      c_isdigit y1 && c_isdigit y2 && c_isdigit y3 && c_isdigit y4 &&
      sep1 = '-' && c_isdigit m1 && c_isdigit m2 &&
      1 ≤ two_digit m1 m2 && two_digit m1 m2 ≤ 12 &&
      sep2 = '-' && c_isdigit d1 && c_isdigit d2 &&
      1 ≤ two_digit d1 d2 && two_digit d1 d2 ≤ 31
  | _ => false

/-- What fhir_validate_time actually checks: HH:MM:SS in the first eight
characters, in range, with arbitrary trailing characters allowed. -/
def time_lead_shape (l : List Char) : Bool :=
  match l with
  | h1 :: h2 :: k1 :: m1 :: m2 :: k2 :: s1 :: s2 :: _ =>
      c_isdigit h1 && c_isdigit h2 && k1 = ':' && c_isdigit m1 && c_isdigit m2 &&
      k2 = ':' && c_isdigit s1 && c_isdigit s2 &&
      two_digit h1 h2 ≤ 23 && two_digit m1 m2 ≤ 59 && two_digit s1 s2 ≤ 59
  | _ => false

/-- The time shape the claim asserts: HH:MM:SS in range, optionally followed by
a fractional part (a dot and one or more digits), and nothing else. -/
def time_claim_shape (l : List Char) : Bool :=
  match l with
  | h1 :: h2 :: k1 :: m1 :: m2 :: k2 :: s1 :: s2 :: rest =>
      c_isdigit h1 && c_isdigit h2 && k1 = ':' && c_isdigit m1 && c_isdigit m2 &&
      k2 = ':' && c_isdigit s1 && c_isdigit s2 &&
      two_digit h1 h2 ≤ 23 && two_digit m1 m2 ≤ 59 && two_digit s1 s2 ≤ 59 &&
      (rest.isEmpty ||
        (match rest with
         | '.' :: ds => !ds.isEmpty && ds.all c_isdigit
         | _ => false))
  | _ => false

/-- The C date validator computes exactly the declarative date shape, whatever
character stands for memory beyond the string. -/
theorem date_impl_eq_shape (d : Char) (l : List Char) :
    fhir_validate_date_impl d l = date_shape l := by
  rcases l with _ | ⟨c0, _ | ⟨c1, _ | ⟨c2, _ | ⟨c3, _ | ⟨c4, _ | ⟨c5, _ | ⟨c6, _ | ⟨c7, _ | ⟨c8, _ | ⟨c9, _ | ⟨c10, rest⟩⟩⟩⟩⟩⟩⟩⟩⟩⟩⟩ <;>
    simp only [fhir_validate_date_impl, date_shape, List.length_cons, List.length_nil,
      List.getD_cons_zero, List.getD_cons_succ] <;>
    norm_num <;>
    first
    | (intro h; exact absurd h (by omega))
    | simp [Bool.and_assoc, ← decide_not, Nat.not_lt]

/-- The C time validator computes exactly the first-eight-characters shape,
whatever character stands for memory beyond the string. -/
theorem time_impl_eq_lead_shape (d : Char) (l : List Char) :
    fhir_validate_time_impl d l = time_lead_shape l := by
  rcases l with _ | ⟨c0, _ | ⟨c1, _ | ⟨c2, _ | ⟨c3, _ | ⟨c4, _ | ⟨c5, _ | ⟨c6, _ | ⟨c7, rest⟩⟩⟩⟩⟩⟩⟩⟩ <;>
    simp only [fhir_validate_time_impl, time_lead_shape, List.length_cons, List.length_nil,
      List.getD_cons_zero, List.getD_cons_succ] <;>
    norm_num <;>
    first
    | (intro h; exact absurd h (by omega))
    | simp [Bool.and_assoc, ← decide_not, Nat.not_lt]

/-- C4: fhir_validate_date accepts a string exactly when it has the shape YYYY,
YYYY-MM or YYYY-MM-DD with all-digit components, month 01-12 and day 01-31 (no
calendar days-per-month check); in particular "2023-01-01" is accepted while
"2023-1-1", "23-01-01", "2023/01/01" and "2023-01-01T" are rejected. -/
theorem fhir_validate_date_shape_spec :
    (∀ s : String, fhir_validate_date (some s) = date_shape s.toList) ∧
    fhir_validate_date (some "2023-01-01") = true ∧
    fhir_validate_date (some "2023-1-1") = false ∧
    fhir_validate_date (some "23-01-01") = false ∧
    fhir_validate_date (some "2023/01/01") = false ∧
    fhir_validate_date (some "2023-01-01T") = false :=
  ⟨fun _ => date_impl_eq_shape _ _, by decide, by decide, by decide, by decide, by decide⟩

/-- C5 counterexample: "12:00:00XYZ" is not of the claimed HH:MM:SS[.fff] shape,
yet fhir_validate_time accepts it — the claim that every string with other
trailing characters after the seconds is rejected is false. -/
theorem fhir_validate_time_trailing_accepted :
    fhir_validate_time (some "12:00:00XYZ") = true ∧
    time_claim_shape "12:00:00XYZ".toList = false := by
  decide

/-- C5 (amended): fhir_validate_time accepts a string exactly when its first
eight characters spell HH:MM:SS with hour ≤ 23, minute ≤ 59 and second ≤ 59;
characters after the eighth are not examined at all, so any trailing text
(a fractional part or otherwise) is accepted. -/
theorem fhir_validate_time_lead_spec :
    (∀ s : String, fhir_validate_time (some s) = time_lead_shape s.toList) ∧
    fhir_validate_time (some "12:00:00") = true ∧
    fhir_validate_time (some "12:00:00.123") = true ∧
    fhir_validate_time (some "24:00:00") = false ∧
    fhir_validate_time (some "12:60:00") = false ∧
    fhir_validate_time (some "12:00:0") = false :=
  ⟨fun _ => time_impl_eq_lead_shape _ _, by decide, by decide, by decide, by decide, by decide⟩

/-- C9: every format validator is a total function over possibly-NULL input that
returns false on NULL, and the date and time validators read no character beyond
the string: their results do not depend on the character chosen to stand for
out-of-bounds memory, because every character test is guarded by a length check. -/
theorem fhir_validators_total_null_safe :
    fhir_validate_uri none = false ∧
    fhir_validate_url none = false ∧
    fhir_validate_date none = false ∧
    fhir_validate_time none = false ∧
    fhir_validate_code none = false ∧
    (∀ d1 d2 : Char, ∀ l : List Char,
      fhir_validate_date_impl d1 l = fhir_validate_date_impl d2 l) ∧
    (∀ d1 d2 : Char, ∀ l : List Char,
      fhir_validate_time_impl d1 l = fhir_validate_time_impl d2 l) :=
  ⟨rfl, rfl, rfl, rfl, rfl,
   fun d1 d2 l => by rw [date_impl_eq_shape, date_impl_eq_shape],
   fun d1 d2 l => by rw [time_impl_eq_lead_shape, time_impl_eq_lead_shape]⟩

/-- A node that is not a string has no valuestring. -/
theorem valuestring_of_not_string {j : Option CJSON} (h : cJSON_IsString j = false) :
    cJSON_valuestring j = none := by
  match j with
  | none => rfl
  | some (.null) => rfl
  | some (.bool _) => rfl
  | some (.num _) => rfl
  | some (.str _) => simp [cJSON_IsString] at h
  | some (.arr _) => rfl
  | some (.obj _) => rfl

/-- A node that is not an array has no items to iterate. -/
theorem arrayItems_of_not_array {j : Option CJSON} (h : cJSON_IsArray j = false) :
    cJSON_arrayItems j = [] := by
  match j with
  | none => rfl
  | some (.null) => rfl
  | some (.bool _) => rfl
  | some (.num _) => rfl
  | some (.str _) => rfl
  | some (.arr _) => simp [cJSON_IsArray] at h
  | some (.obj _) => rfl

/-- C6 counterexample: the number 7/2 is not integer-shaped, yet
fhir_parse_integer does not return NULL on it — it coerces the value to 3. -/
theorem fhir_parse_integer_fraction_coerced :
    (mkRat 7 2).den ≠ 1 ∧
    fhir_parse_integer (some (.num (mkRat 7 2))) = some (fhir_integer_create 3) := by
  decide

/-- C6 (amended): fhir_parse_string is NULL exactly on non-string nodes and
fhir_parse_boolean exactly on non-boolean nodes; fhir_parse_integer is NULL
exactly on non-number nodes, and on any number node — fractional included — it
yields the value cast to int, truncated toward zero (a best-effort coercion). -/
theorem fhir_scalar_parsers_type_checked :
    (∀ json, fhir_parse_string json = none ↔ cJSON_IsString json = false) ∧
    (∀ json, fhir_parse_boolean json = none ↔ cJSON_IsBool json = false) ∧
    (∀ json, fhir_parse_integer json = none ↔ cJSON_IsNumber json = false) ∧
    (∀ q : Rat, fhir_parse_integer (some (.num q)) =
      some (fhir_integer_create (c_int_of_double q))) := by
  refine ⟨fun json => ?_, fun json => ?_, fun json => ?_, fun q => ?_⟩
  · by_cases h : cJSON_IsString json <;> simp [fhir_parse_string, h]
  · by_cases h : cJSON_IsBool json <;> simp [fhir_parse_boolean, h]
  · by_cases h : cJSON_IsNumber json <;> simp [fhir_parse_integer, h]
  · simp [fhir_parse_integer, cJSON_IsNumber, cJSON_valuedouble]

/-- An if between two present options is never NULL. -/
theorem ite_some_ne_none {α : Type} (c : Prop) [Decidable c] (a b : α) :
    (if c then some a else some b) ≠ none := by
  split <;> simp

/-- C7: each complex-value parser returns NULL exactly when the node is not an
object — except fhir_parse_quantity, which also requires a numeric "value"
field.  (Allocation is assumed to succeed; the C functions' only other NULL
returns are calloc failures.) -/
theorem fhir_complex_parsers_object_required :
    ∀ json : Option CJSON,
      (fhir_parse_coding json = none ↔ cJSON_IsObject json = false) ∧
      (fhir_parse_codeable_concept json = none ↔ cJSON_IsObject json = false) ∧
      (fhir_parse_human_name json = none ↔ cJSON_IsObject json = false) ∧
      (fhir_parse_quantity json = none ↔
        (cJSON_IsObject json = false ∨
         cJSON_IsNumber (cJSON_GetObjectItemCaseSensitive json "value") = false)) := by
  intro json
  by_cases h : cJSON_IsObject json
  · refine ⟨?_, ?_, ?_, ?_⟩
    · simp only [h, Bool.true_eq_false, iff_false]
      simp only [fhir_parse_coding, h, Bool.true_eq_false, not_false_eq_true,
        not_true_eq_false, if_false]
      exact ite_some_ne_none _ _ _
    · simp only [h, Bool.true_eq_false, iff_false]
      simp only [fhir_parse_codeable_concept, h, Bool.true_eq_false, not_false_eq_true,
        not_true_eq_false, if_false]
      exact ite_some_ne_none _ _ _
    · simp [fhir_parse_human_name, h]
    · by_cases hv : cJSON_IsNumber (cJSON_GetObjectItemCaseSensitive json "value")
      · simp only [h, hv, Bool.true_eq_false, or_self, iff_false]
        simp only [fhir_parse_quantity, h, hv, Bool.true_eq_false, not_false_eq_true,
          not_true_eq_false, if_false]
        exact ite_some_ne_none _ _ _
      · simp [fhir_parse_quantity, h, hv]
  · simp [fhir_parse_coding, fhir_parse_codeable_concept, fhir_parse_human_name,
      fhir_parse_quantity, h]

/-- C1 counterexample: a Coding with a populated version does not round-trip —
fhir_coding_to_json emits the version, but fhir_parse_coding never reads it,
so the re-parsed value has no version and is not field-for-field equal. -/
theorem fhir_coding_roundtrip_version_dropped :
    fhir_parse_coding (some (fhir_coding_to_json
      { system := none, version := some "2.1", code := none, display := none,
        user_selected := false })) =
      some { system := none, version := none, code := none, display := none,
             user_selected := false } ∧
    (some "2.1" : Option String) ≠ none := by
  decide

/-- C1 (amended): for every Coding, re-parsing the rendered document yields a
Coding whose system, code, display and user_selected equal the original's and
whose version is NULL; hence the round trip is the identity exactly on Codings
with no version — which includes every Coding built by fhir_coding_create,
since that constructor never populates version. -/
theorem fhir_coding_roundtrip (c : FHIRCoding) :
    fhir_parse_coding (some (fhir_coding_to_json c)) =
      some { c with version := none } := by
  rcases c with ⟨s, v, cd, dp, u⟩
  rcases s with _ | s <;> rcases v with _ | v <;> rcases cd with _ | cd <;>
    rcases dp with _ | dp <;> rcases u <;>
    simp [fhir_coding_to_json, fhir_parse_coding, fhir_coding_create, addIfSet,
      cJSON_GetObjectItemCaseSensitive, findField, cJSON_IsObject, cJSON_IsBool,
      cJSON_IsTrue, cJSON_valuestring, fhir_string_duplicate]

/-- C8: a rendered Coding document has a key exactly for each populated
sub-field (userSelected counts as populated when true, its non-default value);
a rendered Quantity document always has the required "value" key and otherwise
a key exactly for each populated sub-field; a Coding with only code populated
renders to an object whose only key is "code". -/
theorem fhir_serialization_omits_unset :
    (∀ c : FHIRCoding,
      ("system" ∈ jsonKeys (fhir_coding_to_json c) ↔ c.system ≠ none) ∧
      ("version" ∈ jsonKeys (fhir_coding_to_json c) ↔ c.version ≠ none) ∧
      ("code" ∈ jsonKeys (fhir_coding_to_json c) ↔ c.code ≠ none) ∧
      ("display" ∈ jsonKeys (fhir_coding_to_json c) ↔ c.display ≠ none) ∧
      ("userSelected" ∈ jsonKeys (fhir_coding_to_json c) ↔ c.user_selected = true)) ∧
    (∀ q : FHIRQuantity,
      "value" ∈ jsonKeys (fhir_quantity_to_json q) ∧
      ("comparator" ∈ jsonKeys (fhir_quantity_to_json q) ↔ q.comparator ≠ none) ∧
      ("unit" ∈ jsonKeys (fhir_quantity_to_json q) ↔ q.unit ≠ none) ∧
      ("system" ∈ jsonKeys (fhir_quantity_to_json q) ↔ q.system ≠ none) ∧
      ("code" ∈ jsonKeys (fhir_quantity_to_json q) ↔ q.code ≠ none)) ∧
    jsonKeys (fhir_coding_to_json
      { system := none, version := none, code := some "c1", display := none,
        user_selected := false }) = ["code"] := by
  refine ⟨fun c => ?_, fun q => ?_, by decide⟩
  · rcases c with ⟨s, v, cd, dp, u⟩
    rcases s with _ | s <;> rcases v with _ | v <;> rcases cd with _ | cd <;>
      rcases dp with _ | dp <;> rcases u <;>
      simp [fhir_coding_to_json, jsonKeys, addIfSet]
  · rcases q with ⟨val, cp, un, sy, cd⟩
    rcases cp with _ | cp <;> rcases un with _ | un <;> rcases sy with _ | sy <;>
      rcases cd with _ | cd <;>
      simp [fhir_quantity_to_json, jsonKeys, addIfSet]

/-- The coding append-on-success loop retains exactly the elements that parse. -/
theorem coding_array_foreach_eq_filterMap (items : List CJSON) :
    coding_array_foreach items =
      items.filterMap (fun item => fhir_parse_coding (some item)) := by
  have h : ∀ (its : List CJSON) (acc : List FHIRCoding),
      its.foldl
        (fun acc item =>
          match fhir_parse_coding (some item) with
          | some coding => acc ++ [coding]
          | none => acc)
        acc = acc ++ its.filterMap (fun item => fhir_parse_coding (some item)) := by
    intro its
    induction its with
    | nil => simp
    | cons head tail ih =>
      intro acc
      cases hp : fhir_parse_coding (some head) <;>
        simp [List.filterMap_cons, hp, ih]
  simpa [coding_array_foreach] using h items []

/-- The given-name append-on-string loop retains exactly the string elements. -/
theorem given_array_foreach_eq_filterMap (items : List CJSON) :
    given_array_foreach items =
      items.filterMap (fun item =>
        match item with
        | .str s => some s
        | _ => none) := by
  have h : ∀ (its : List CJSON) (acc : List String),
      its.foldl
        (fun acc item =>
          match item with
          | CJSON.str s => acc ++ [s]
          | _ => acc)
        acc = acc ++ its.filterMap (fun item =>
          match item with
          | CJSON.str s => some s
          | _ => none) := by
    intro its
    induction its with
    | nil => simp
    | cons head tail ih =>
      intro acc
      cases head <;> simp [List.filterMap_cons, ih]
  simpa [given_array_foreach] using h items []

/-- C3: parsing a CodeableConcept object iterates its coding array, attempts
each element independently, and retains exactly the elements that parse
(the non-objects are skipped, not fatal), with coding_count the number
retained; with no coding array the list is empty; an array of two valid Coding
objects around one non-object entry yields exactly two elements. -/
theorem fhir_codeable_concept_collection_parsing :
    (∀ fields : List (String × CJSON),
      fhir_parse_codeable_concept (some (.obj fields)) =
        some { text := cJSON_valuestring (findField fields "text")
               coding := (cJSON_arrayItems (findField fields "coding")).filterMap
                 (fun item => fhir_parse_coding (some item)) }) ∧
    (∀ fields : List (String × CJSON),
      (fhir_parse_codeable_concept (some (.obj fields))).map
          FHIRCodeableConcept.coding_count =
        some ((cJSON_arrayItems (findField fields "coding")).filterMap
          (fun item => fhir_parse_coding (some item))).length) ∧
    (fhir_parse_codeable_concept (some (.obj [("coding", .arr
        [.obj [("code", .str "a")], .str "bad", .obj [("code", .str "b")]])]))).map
      FHIRCodeableConcept.coding_count = some 2 := by
  have main : ∀ fields : List (String × CJSON),
      fhir_parse_codeable_concept (some (.obj fields)) =
        some { text := cJSON_valuestring (findField fields "text")
               coding := (cJSON_arrayItems (findField fields "coding")).filterMap
                 (fun item => fhir_parse_coding (some item)) } := by
    intro fields
    by_cases h : cJSON_IsArray (findField fields "coding")
    · simp [fhir_parse_codeable_concept, fhir_codeable_concept_create,
        cJSON_GetObjectItemCaseSensitive, cJSON_IsObject, fhir_string_duplicate, h,
        coding_array_foreach_eq_filterMap]
    · simp [fhir_parse_codeable_concept, fhir_codeable_concept_create,
        cJSON_GetObjectItemCaseSensitive, cJSON_IsObject, fhir_string_duplicate, h,
        arrayItems_of_not_array (Bool.of_not_eq_true h)]
  refine ⟨main, fun fields => ?_, by decide⟩
  rw [main fields]
  rfl

/-- C10: on any object document, fhir_parse_human_name maps a string "family"
field to a one-element family array (family_count 1), leaves the family empty
(family_count 0) when "family" is absent or not a string, and keeps exactly the
string elements of the "given" array in order, given_count being their number. -/
theorem fhir_human_name_normalization :
    ∀ fields : List (String × CJSON),
      fhir_parse_human_name (some (.obj fields)) =
        some { use := cJSON_valuestring (findField fields "use")
               text := cJSON_valuestring (findField fields "text")
               family := (cJSON_valuestring (findField fields "family")).toList
               given := (cJSON_arrayItems (findField fields "given")).filterMap
                 (fun item =>
                   match item with
                   | .str s => some s
                   | _ => none) } ∧
      ((cJSON_valuestring (findField fields "family")).toList.length =
        if cJSON_IsString (findField fields "family") then 1 else 0) := by
  intro fields
  constructor
  · by_cases h1 : cJSON_IsString (findField fields "use") <;>
      by_cases h2 : cJSON_IsString (findField fields "text") <;>
      by_cases h3 : cJSON_IsString (findField fields "family") <;>
      by_cases h4 : cJSON_IsArray (findField fields "given") <;>
      simp_all [fhir_parse_human_name, cJSON_GetObjectItemCaseSensitive, cJSON_IsObject,
        fhir_string_duplicate, given_array_foreach_eq_filterMap,
        valuestring_of_not_string, arrayItems_of_not_array]
  · by_cases h : cJSON_IsString (findField fields "family")
    · rcases hv : findField fields "family" with _ | node
      · simp [hv, cJSON_IsString] at h
      · cases node <;> simp_all [cJSON_IsString, cJSON_valuestring]
    · simp [valuestring_of_not_string (Bool.of_not_eq_true h), h]

/-- C2 (spec-modelled): after create the ownership count is 1 and nothing has
been destroyed; retain returns the same underlying handle and raises the count
to 2; the two subsequent releases first lower the count to 1 without
destruction and then destroy the resource exactly once (count 0, destruction
counter 1, never 0 and never 2); and as long as an owner remains, any release
keeps the invariant that destruction happens exactly at the instant the count
reaches zero. -/
theorem fhir_resource_ownership_counting :
    fhir_resource_create.ref_count = 1 ∧
    fhir_resource_create.destroy_count = 0 ∧
    (∀ (handle : Nat) (s : FHIRResourceState),
      (fhir_resource_retain handle s).1 = handle) ∧
    ((fhir_resource_retain 0 fhir_resource_create).2.ref_count = 2 ∧
      (fhir_resource_release ((fhir_resource_retain 0 fhir_resource_create).2)).ref_count = 1 ∧
      (fhir_resource_release ((fhir_resource_retain 0 fhir_resource_create).2)).destroy_count = 0 ∧
      (fhir_resource_release (fhir_resource_release
        ((fhir_resource_retain 0 fhir_resource_create).2))).ref_count = 0 ∧
      (fhir_resource_release (fhir_resource_release
        ((fhir_resource_retain 0 fhir_resource_create).2))).destroy_count = 1) ∧
    (∀ s : FHIRResourceState, 1 ≤ s.ref_count →
      (fhir_resource_release s).ref_count = s.ref_count - 1 ∧
      ((fhir_resource_release s).destroy_count = s.destroy_count + 1 ↔ s.ref_count = 1) ∧
      (s.ref_count ≠ 1 → (fhir_resource_release s).destroy_count = s.destroy_count)) := by
  refine ⟨rfl, rfl, fun handle s => rfl, by decide, fun s hs => ?_⟩
  rcases s with ⟨rc, dc⟩
  simp only at hs
  rcases Nat.lt_or_ge 1 rc with h | h
  · have hne : ¬ rc ≤ 1 := by omega
    refine ⟨by simp [fhir_resource_release, hne], ?_, fun _ => by
      simp [fhir_resource_release, hne]⟩
    simp only [fhir_resource_release, if_neg hne]
    constructor
    · intro habs
      exact absurd habs (by omega)
    · intro habs
      exact absurd habs (by omega)
  · have h1 : rc = 1 := by omega
    subst h1
    refine ⟨rfl, by simp [fhir_resource_release], by simp [fhir_resource_release]⟩

/-- C2 witness: the general release clause applied at the concrete state with
two owners — one release lowers the count to one and does not destroy. -/
theorem fhir_resource_ownership_counting_witness :
    (1 : Nat) ≤ (⟨2, 0⟩ : FHIRResourceState).ref_count ∧
    (fhir_resource_release ⟨2, 0⟩).ref_count = 1 ∧
    ((fhir_resource_release ⟨2, 0⟩).destroy_count = 0 + 1 ↔
      (⟨2, 0⟩ : FHIRResourceState).ref_count = 1) ∧
    ((⟨2, 0⟩ : FHIRResourceState).ref_count ≠ 1 →
      (fhir_resource_release ⟨2, 0⟩).destroy_count = 0) :=
  ⟨by decide, (fhir_resource_ownership_counting.2.2.2.2 ⟨2, 0⟩ (by decide)).1,
    (fhir_resource_ownership_counting.2.2.2.2 ⟨2, 0⟩ (by decide)).2.1,
    (fhir_resource_ownership_counting.2.2.2.2 ⟨2, 0⟩ (by decide)).2.2⟩
